import Mathlib

/-!
Shallow embedding of the parse-tree core in `src/runtime/tree.c`.

The node record mirrors the C `TSTree` struct: the scalar fields are grouped
in `TSTreeData`, and the recursive fields (`children`, and the flattened
`visible_children` cache of `TSTreeChild` entries) live in the inductive
`TSTree`.  The C `options` bitfield (`TSTreeOptionsHidden`,
`TSTreeOptionsWrapper`) is modelled as the two booleans `hidden` and
`wrapper`.  The C `child_count` field is always set to the length of the
`children` array by the constructors, so it is modelled as `children.length`.
Machine sizes (`size_t`) are modelled as `Nat`; `char` as `Char` with
`Char.ofNat 0` for the `'\0'` sentinel.
-/

/-- Scalar fields of the C `TSTree` struct. -/
structure TSTreeData where
  ref_count : Nat
  symbol : Nat
  size : Nat
  padding : Nat
  lookahead_char : Char
  visible_child_count : Nat
  hidden : Bool
  wrapper : Bool
deriving DecidableEq, Repr

/-- A tree node: scalar data, the owned child array, and the co-located
flattened visible-child array of `(tree, offset)` pairs (`TSTreeChild`). -/
inductive TSTree : Type where
  | mk (data : TSTreeData) (children : List TSTree)
      (visible_children : List (TSTree × Nat)) : TSTree
deriving Repr

def TSTree.data : TSTree → TSTreeData
  | .mk d _ _ => d

def TSTree.children : TSTree → List TSTree
  | .mk _ cs _ => cs

def TSTree.visible_children : TSTree → List (TSTree × Nat)
  | .mk _ _ vcs => vcs

def TSTree.ref_count (t : TSTree) : Nat := t.data.ref_count

def TSTree.symbol (t : TSTree) : Nat := t.data.symbol

def TSTree.size (t : TSTree) : Nat := t.data.size

def TSTree.padding (t : TSTree) : Nat := t.data.padding

def TSTree.lookahead_char (t : TSTree) : Char := t.data.lookahead_char

def TSTree.visible_child_count (t : TSTree) : Nat := t.data.visible_child_count

def TSTree.hidden (t : TSTree) : Bool := t.data.hidden

def TSTree.wrapper (t : TSTree) : Bool := t.data.wrapper

/-- The C `child_count` field; the constructors always set it to the length
of the `children` array, so it is modelled as that length. -/
def TSTree.child_count (t : TSTree) : Nat := t.children.length

/-- Modelled from the spec: the reserved sentinel symbol value meaning
"parse error" (`ts_builtin_sym_error`, declared in `parser.h`, which is not
part of the sources here). -/
def ts_builtin_sym_error : Nat := 0

/-- Modelled from the spec: the visibility predicate declared in `tree.h`
(not part of the sources here); a node is visible iff it is not hidden. -/
def ts_tree_is_visible (t : TSTree) : Bool := !t.hidden

/-- Modelled from the spec: the wrapper predicate declared in `tree.h`
(not part of the sources here); tests the wrapper option bit. -/
def ts_tree_is_wrapper (t : TSTree) : Bool := t.wrapper

/-- `ts_tree_make_leaf`: childless node, `ref_count = 1`; `options` is
`Hidden` iff `is_hidden`; all omitted C fields are zero-initialized. -/
def ts_tree_make_leaf (sym : Nat) (size : Nat) (padding : Nat)
    (is_hidden : Bool) : TSTree :=
  TSTree.mk
    { ref_count := 1, symbol := sym, size := size, padding := padding,
      lookahead_char := Char.ofNat 0, visible_child_count := 0,
      hidden := is_hidden, wrapper := false }
    [] []

/-- `ts_tree_make_error`: a leaf with the reserved error symbol, never
hidden, with the observed lookahead character stored afterwards. -/
def ts_tree_make_error (size : Nat) (padding : Nat)
    (lookahead_char : Char) : TSTree :=
  match ts_tree_make_leaf ts_builtin_sym_error size padding false with
  | .mk d cs vcs =>
    TSTree.mk { d with lookahead_char := lookahead_char } cs vcs

/-- `ts_tree_retain`: `tree->ref_count++`, modelled functionally as the
post-call state of the node. -/
def ts_tree_retain : TSTree → TSTree
  | .mk d cs vcs => TSTree.mk { d with ref_count := d.ref_count + 1 } cs vcs

/-- One child's contribution to the parent's visible-child array, given the
running `offset` at which the child's content starts: a visible child
contributes itself, a hidden child contributes its own cached
`visible_children` with offsets shifted by `offset`
(`tree.c` lines 89-101). -/
def child_visible_entries (child : TSTree) (offset : Nat) :
    List (TSTree × Nat) :=
  if ts_tree_is_visible child then [(child, offset)]
  else child.visible_children.map fun g => (g.1, offset + g.2)

/-- The flattening loop of `ts_tree_make_node` for the children at index
`i > 0`: each child's padding is added to `offset` before the child is
processed, and its size afterwards (`tree.c` lines 83-104). -/
def collect_visible_rest : List TSTree → Nat → List (TSTree × Nat)
  | [], _ => []
  | child :: rest, offset =>
    child_visible_entries child (offset + child.padding) ++
      collect_visible_rest rest (offset + child.padding + child.size)

/-- The full flattening loop of `ts_tree_make_node`: the first child is
processed at `offset = 0` (its padding is not added), the rest follow. -/
def collect_visible_children : List TSTree → List (TSTree × Nat)
  | [] => []
  | child :: rest =>
    child_visible_entries child 0 ++ collect_visible_rest rest child.size

/-- `ts_tree_make_node`: retains every child, computes padding/size from the
first child's padding and the folded extents of the rest, counts visible
children, sets the wrapper/hidden options for a single visible-or-wrapper
child, and builds the flattened visible-child array. -/
def ts_tree_make_node (symbol : Nat) (children : List TSTree)
    (is_hidden : Bool) : TSTree :=
  let retained := children.map ts_tree_retain
  let padding := match retained with
    | [] => 0
    | c :: _ => c.padding
  let size := match retained with
    | [] => 0
    | c :: rest => c.size + (rest.map fun x => x.padding + x.size).sum
  let visible_child_count :=
    (retained.map fun c =>
      if ts_tree_is_visible c then 1 else c.visible_child_count).sum
  let wrapper := match retained with
    | [c] => ts_tree_is_visible c || ts_tree_is_wrapper c
    | _ => false
  let hidden := is_hidden || wrapper
  TSTree.mk
    { ref_count := 1, symbol := symbol, size := size, padding := padding,
      lookahead_char := Char.ofNat 0,
      visible_child_count := visible_child_count,
      hidden := hidden, wrapper := wrapper }
    retained (collect_visible_children retained)

/-- `ts_tree_total_size`: `padding + size`. -/
def ts_tree_total_size (t : TSTree) : Nat := t.padding + t.size

mutual
/-- Structural equality, `ts_tree_equals`: same symbol, lookahead, child
count and visible-child count, and recursively equal children in order. -/
def ts_tree_equals : TSTree → TSTree → Bool
  | .mk d1 cs1 _, .mk d2 cs2 _ =>
    d1.symbol == d2.symbol &&
    d1.lookahead_char == d2.lookahead_char &&
    cs1.length == cs2.length &&
    d1.visible_child_count == d2.visible_child_count &&
    ts_tree_equals_list cs1 cs2

def ts_tree_equals_list : List TSTree → List TSTree → Bool
  | [], [] => true
  | x :: xs, y :: ys => ts_tree_equals x y && ts_tree_equals_list xs ys
  | _, _ => false
end

/-- `write_lookahead_to_string`: `<EOF>` for the `'\0'` sentinel, the quoted
character otherwise. -/
def write_lookahead_to_string (lookahead : Char) : String :=
  if lookahead = Char.ofNat 0 then "<EOF>"
  else "'" ++ String.singleton lookahead ++ "'"

mutual
/-- `tree_write_to_string`: a visible non-root node is preceded by a space;
a visible node opens `(ERROR <lookahead>` or `(<name>`; children are always
rendered (as non-roots); a visible node closes with `)`. -/
def tree_write_to_string (symbol_names : Nat → String) :
    TSTree → Bool → String
  | .mk d cs _, is_root =>
    let visible := !d.hidden || is_root
    let space := if visible && !is_root then " " else ""
    let head :=
      if visible then
        if d.symbol = ts_builtin_sym_error then
          "(ERROR " ++ write_lookahead_to_string d.lookahead_char
        else
          "(" ++ symbol_names d.symbol
      else ""
    let tail := if visible then ")" else ""
    space ++ head ++ children_write_to_string symbol_names cs ++ tail

def children_write_to_string (symbol_names : Nat → String) :
    List TSTree → String
  | [] => ""
  | c :: rest =>
    tree_write_to_string symbol_names c false ++
      children_write_to_string symbol_names rest
end

/-- `ts_tree_string`: render the whole tree, the topmost node always
treated as visible. -/
def ts_tree_string (t : TSTree) (symbol_names : Nat → String) : String :=
  tree_write_to_string symbol_names t true

/-! ### Basic projection lemmas -/

@[simp] lemma TSTree.data_mk (d : TSTreeData) (cs : List TSTree)
    (vcs : List (TSTree × Nat)) : (TSTree.mk d cs vcs).data = d := rfl

@[simp] lemma TSTree.children_mk (d : TSTreeData) (cs : List TSTree)
    (vcs : List (TSTree × Nat)) : (TSTree.mk d cs vcs).children = cs := rfl

@[simp] lemma TSTree.visible_children_mk (d : TSTreeData) (cs : List TSTree)
    (vcs : List (TSTree × Nat)) :
    (TSTree.mk d cs vcs).visible_children = vcs := rfl

@[simp] lemma ts_tree_retain_ref_count (t : TSTree) :
    (ts_tree_retain t).ref_count = t.ref_count + 1 := by cases t; rfl

@[simp] lemma ts_tree_retain_symbol (t : TSTree) :
    (ts_tree_retain t).symbol = t.symbol := by cases t; rfl

@[simp] lemma ts_tree_retain_size (t : TSTree) :
    (ts_tree_retain t).size = t.size := by cases t; rfl

@[simp] lemma ts_tree_retain_padding (t : TSTree) :
    (ts_tree_retain t).padding = t.padding := by cases t; rfl

@[simp] lemma ts_tree_retain_lookahead_char (t : TSTree) :
    (ts_tree_retain t).lookahead_char = t.lookahead_char := by cases t; rfl

@[simp] lemma ts_tree_retain_visible_child_count (t : TSTree) :
    (ts_tree_retain t).visible_child_count = t.visible_child_count := by
  cases t; rfl

@[simp] lemma ts_tree_retain_hidden (t : TSTree) :
    (ts_tree_retain t).hidden = t.hidden := by cases t; rfl

@[simp] lemma ts_tree_retain_wrapper (t : TSTree) :
    (ts_tree_retain t).wrapper = t.wrapper := by cases t; rfl

@[simp] lemma ts_tree_retain_children (t : TSTree) :
    (ts_tree_retain t).children = t.children := by cases t; rfl

@[simp] lemma ts_tree_retain_visible_children (t : TSTree) :
    (ts_tree_retain t).visible_children = t.visible_children := by
  cases t; rfl

@[simp] lemma ts_tree_is_visible_retain (t : TSTree) :
    ts_tree_is_visible (ts_tree_retain t) = ts_tree_is_visible t := by
  cases t; rfl

@[simp] lemma ts_tree_is_wrapper_retain (t : TSTree) :
    ts_tree_is_wrapper (ts_tree_retain t) = ts_tree_is_wrapper t := by
  cases t; rfl

@[simp] lemma ts_tree_make_node_children (s : Nat) (cs : List TSTree)
    (h : Bool) :
    (ts_tree_make_node s cs h).children = cs.map ts_tree_retain := rfl

lemma retain_extent_fun :
    (fun x => (ts_tree_retain x).padding + (ts_tree_retain x).size) =
      fun x : TSTree => x.padding + x.size :=
  funext fun x => by cases x; rfl

/-! ### C10: `MakeNode` on an empty child list -/

/-- C10: for every symbol and hidden flag, `ts_tree_make_node` on an empty
child list returns a node with padding 0, size 0, visible-child count 0,
`ref_count` 1, wrapper flag unset, and hidden flag equal to `is_hidden`. -/
theorem ts_tree_make_node_empty_children (symbol : Nat) (is_hidden : Bool) :
    (ts_tree_make_node symbol [] is_hidden).padding = 0 ∧
    (ts_tree_make_node symbol [] is_hidden).size = 0 ∧
    (ts_tree_make_node symbol [] is_hidden).visible_child_count = 0 ∧
    (ts_tree_make_node symbol [] is_hidden).ref_count = 1 ∧
    (ts_tree_make_node symbol [] is_hidden).wrapper = false ∧
    (ts_tree_make_node symbol [] is_hidden).hidden = is_hidden := by
  refine ⟨rfl, rfl, rfl, rfl, rfl, ?_⟩
  show (is_hidden || false) = is_hidden
  exact Bool.or_false is_hidden

/-! ### C1: extent additivity -/

/-- C1: for an internal node built by `ts_tree_make_node` from a non-empty
child list `c :: rest`, the node's padding equals the first child's padding
and its size is the first child's size plus the summed extents
(padding + size) of the remaining children. -/
theorem ts_tree_make_node_extent_additivity (symbol : Nat) (c : TSTree)
    (rest : List TSTree) (is_hidden : Bool) :
    (ts_tree_make_node symbol (c :: rest) is_hidden).padding = c.padding ∧
    (ts_tree_make_node symbol (c :: rest) is_hidden).size =
      c.size + (rest.map fun x => x.padding + x.size).sum := by
  constructor
  · show (ts_tree_retain c).padding = c.padding
    simp
  · show (ts_tree_retain c).size +
        ((rest.map ts_tree_retain).map
          fun x => x.padding + x.size).sum = _
    rw [List.map_map, ts_tree_retain_size]
    have hf : ((fun x : TSTree => x.padding + x.size) ∘ ts_tree_retain) =
        fun x : TSTree => x.padding + x.size :=
      funext fun x => by cases x; rfl
    rw [hf]

/-! ### C2: visible-count conservation -/

lemma retain_visible_count_fun :
    (fun c => if ts_tree_is_visible (ts_tree_retain c) then 1
      else (ts_tree_retain c).visible_child_count) =
      fun c : TSTree =>
        if ts_tree_is_visible c then 1 else c.visible_child_count :=
  funext fun c => by cases c; rfl

/-- C2: for every node returned by `ts_tree_make_node`, the visible-child
count is the sum over the children of (1 if the child is visible, else the
child's own visible-child count). -/
theorem ts_tree_make_node_visible_count (symbol : Nat)
    (children : List TSTree) (is_hidden : Bool) :
    (ts_tree_make_node symbol children is_hidden).visible_child_count =
      (children.map fun c =>
        if ts_tree_is_visible c then 1 else c.visible_child_count).sum := by
  show ((children.map ts_tree_retain).map fun c =>
      if ts_tree_is_visible c then (1 : Nat)
      else c.visible_child_count).sum = _
  rw [List.map_map]
  congr 2
  exact funext fun c => by cases c; rfl

/-! ### C6: reference-count frame condition -/

/-- C6: `ts_tree_make_node` stores as its children exactly the retained
input children, in order, and the modelled retain operation increments the
child's `ref_count` by one and leaves every other field of the child
unchanged. -/
theorem ts_tree_make_node_retains_children (symbol : Nat)
    (children : List TSTree) (is_hidden : Bool) :
    (ts_tree_make_node symbol children is_hidden).children =
      children.map ts_tree_retain ∧
    ∀ c : TSTree,
      (ts_tree_retain c).ref_count = c.ref_count + 1 ∧
      (ts_tree_retain c).symbol = c.symbol ∧
      (ts_tree_retain c).size = c.size ∧
      (ts_tree_retain c).padding = c.padding ∧
      (ts_tree_retain c).lookahead_char = c.lookahead_char ∧
      (ts_tree_retain c).visible_child_count = c.visible_child_count ∧
      (ts_tree_retain c).hidden = c.hidden ∧
      (ts_tree_retain c).wrapper = c.wrapper ∧
      (ts_tree_retain c).children = c.children ∧
      (ts_tree_retain c).visible_children = c.visible_children := by
  refine ⟨rfl, fun c => ?_⟩
  cases c
  exact ⟨rfl, rfl, rfl, rfl, rfl, rfl, rfl, rfl, rfl, rfl⟩

/-! ### The end-to-end scenario: leaves A and B, hidden wrapper W, root R -/

/-- Leaf A of the end-to-end scenario: size 1, padding 0, visible. -/
def leafA : TSTree := ts_tree_make_leaf 1 1 0 false

/-- Leaf B of the end-to-end scenario: size 2, padding 1, visible. -/
def leafB : TSTree := ts_tree_make_leaf 2 2 1 false

/-- Hidden wrapper W over the single child B. -/
def nodeW : TSTree := ts_tree_make_node 3 [leafB] true

/-- Root R over the child list [A, W]. -/
def nodeR : TSTree := ts_tree_make_node 4 [leafA, nodeW] false

/-! ### C3: the end-to-end scenario -/

/-- C3 counterexample: the flattened visible-child offsets of R are not
`[0, 1]` as the claim states — the second entry (leaf B) sits at offset 2,
because B's content is preceded by A's 1-byte content and by W's 1-byte
padding (inherited from B). -/
theorem nodeR_visible_offsets_ne_0_1 :
    nodeR.visible_children.map Prod.snd ≠ [0, 1] := by decide

/-- C3 amended: `R.padding = 0`, `R.size = 4`,
`R.visible_child_count = 2`, and R's flattened visible-child list is
exactly `[(A, 0), (B, 2)]` (each entry holding the retained leaf and the
offset of its visible content relative to R's content start). -/
theorem nodeR_end_to_end :
    nodeR.padding = 0 ∧ nodeR.size = 4 ∧ nodeR.visible_child_count = 2 ∧
    nodeR.visible_children =
      [(ts_tree_retain leafA, 0), (ts_tree_retain leafB, 2)] :=
  ⟨rfl, rfl, rfl, rfl⟩

/-! ### C4: wrapper transparency -/

/-- C4 counterexample: a node built from the single visible child B
(padding 1) has its one visible-child entry at offset 0, not at offset
`B.padding = 1` as the claim states. -/
theorem single_child_offset_ne_padding :
    (ts_tree_make_node 5 [leafB] false).visible_children.map Prod.snd ≠
      [leafB.padding] := by decide

/-- C4 amended: a node built by `ts_tree_make_node` from exactly one child
that is visible or a wrapper is marked hidden and wrapper regardless of the
`is_hidden` argument, and when that single child is visible the node's
single visible-child entry is the retained child at offset 0. -/
theorem make_node_wrapper_transparency (symbol : Nat) (c : TSTree)
    (is_hidden : Bool)
    (h : ts_tree_is_visible c = true ∨ ts_tree_is_wrapper c = true) :
    (ts_tree_make_node symbol [c] is_hidden).hidden = true ∧
    (ts_tree_make_node symbol [c] is_hidden).wrapper = true ∧
    (ts_tree_is_visible c = true →
      (ts_tree_make_node symbol [c] is_hidden).visible_children =
        [(ts_tree_retain c, 0)]) := by
  have hw : (ts_tree_make_node symbol [c] is_hidden).wrapper = true := by
    show (ts_tree_is_visible (ts_tree_retain c) ||
        ts_tree_is_wrapper (ts_tree_retain c)) = true
    rcases h with h | h <;> simp [h]
  refine ⟨?_, hw, ?_⟩
  · show (is_hidden ||
        (ts_tree_is_visible (ts_tree_retain c) ||
          ts_tree_is_wrapper (ts_tree_retain c))) = true
    rcases h with h | h <;> simp [h]
  · intro hv
    show child_visible_entries (ts_tree_retain c) 0 ++ [] = _
    rw [List.append_nil, child_visible_entries]
    simp [hv]

/-- Witness for C4: instantiated at the visible leaf B. -/
theorem make_node_wrapper_transparency_witness :
    (ts_tree_make_node 5 [leafB] false).hidden = true ∧
    (ts_tree_make_node 5 [leafB] false).wrapper = true ∧
    (ts_tree_make_node 5 [leafB] false).visible_children =
      [(ts_tree_retain leafB, 0)] := by
  have h := make_node_wrapper_transparency 5 leafB false (Or.inl (by decide))
  exact ⟨h.1, h.2.1, h.2.2 (by decide)⟩

/-! ### C7: structural equality -/

/-- The spec's description of structural equality, as an inductive
predicate: same symbol, same lookahead, same child count and visible-child
count, and pairwise recursively equal children in order — saying nothing
about size, padding, or the hidden/wrapper flags. -/
inductive EqualsSpec : TSTree → TSTree → Prop where
  | intro (a b : TSTree)
      (hsym : a.symbol = b.symbol)
      (hla : a.lookahead_char = b.lookahead_char)
      (hcc : a.child_count = b.child_count)
      (hvcc : a.visible_child_count = b.visible_child_count)
      (hch : List.Forall₂ EqualsSpec a.children b.children) :
      EqualsSpec a b

lemma ts_tree_equals_list_iff_aux :
    ∀ (cs1 : List TSTree),
      (∀ x ∈ cs1, ∀ y : TSTree,
        (ts_tree_equals x y = true ↔ EqualsSpec x y)) →
      ∀ (cs2 : List TSTree),
        (ts_tree_equals_list cs1 cs2 = true ↔
          List.Forall₂ EqualsSpec cs1 cs2)
  | [], _, [] => by simp [ts_tree_equals_list]
  | [], _, y :: ys => by simp [ts_tree_equals_list]
  | x :: xs, ih, [] => by simp [ts_tree_equals_list]
  | x :: xs, ih, y :: ys => by
    rw [ts_tree_equals_list, Bool.and_eq_true, List.forall₂_cons,
      ih x (by simp) y,
      ts_tree_equals_list_iff_aux xs (fun z hz => ih z (by simp [hz])) ys]

lemma ts_tree_equals_iff_spec :
    ∀ (a b : TSTree), (ts_tree_equals a b = true ↔ EqualsSpec a b)
  | .mk d1 cs1 v1, .mk d2 cs2 v2 => by
    have hlist := ts_tree_equals_list_iff_aux cs1
      (fun x hx y => ts_tree_equals_iff_spec x y) cs2
    rw [ts_tree_equals]
    simp only [Bool.and_eq_true, beq_iff_eq]
    constructor
    · rintro ⟨⟨⟨⟨hsym, hla⟩, hlen⟩, hvcc⟩, hch⟩
      exact EqualsSpec.intro _ _ hsym hla hlen hvcc (hlist.mp hch)
    · intro h
      cases h with
      | intro _ _ hsym hla hcc hvcc hch =>
        exact ⟨⟨⟨⟨hsym, hla⟩, hcc⟩, hvcc⟩, hlist.mpr hch⟩
termination_by a _ => sizeOf a
decreasing_by
  have hx1 := List.sizeOf_lt_of_mem hx
  simp only [TSTree.mk.sizeOf_spec]
  omega

/-- Two leaves with the same symbol but different size, padding and hidden
flag; `ts_tree_equals` still reports them equal. -/
def eqLeafX : TSTree := ts_tree_make_leaf 3 1 0 false

/-- See `eqLeafX`. -/
def eqLeafY : TSTree := ts_tree_make_leaf 3 5 7 true

/-- C7: `ts_tree_equals` returns true exactly when the two nodes have the
same symbol, lookahead, child count and visible-child count with pairwise
recursively equal children (the `EqualsSpec` predicate); in particular the
two leaves `eqLeafX`, `eqLeafY`, which differ in size, padding and hidden
flag, compare equal. -/
theorem ts_tree_equals_characterization :
    (∀ a b : TSTree, ts_tree_equals a b = true ↔ EqualsSpec a b) ∧
    ts_tree_equals eqLeafX eqLeafY = true ∧
    eqLeafX.size ≠ eqLeafY.size ∧
    eqLeafX.padding ≠ eqLeafY.padding ∧
    eqLeafX.hidden ≠ eqLeafY.hidden :=
  ⟨ts_tree_equals_iff_spec, by decide, by decide, by decide, by decide⟩

/-- Witness for C7: the characterization applied to the two concrete
leaves, showing they satisfy the spec's structural-equality predicate. -/
theorem ts_tree_equals_characterization_witness :
    EqualsSpec eqLeafX eqLeafY :=
  (ts_tree_equals_characterization.1 eqLeafX eqLeafY).mp (by decide)

/-! ### C8: rendering, round trip through a hidden wrapper -/

/-- A symbol table mapping symbols 1, 2, 3 to `name1`, `name2`, `name3`. -/
def names0 : Nat → String := fun n =>
  if n = 1 then "name1" else if n = 2 then "name2"
  else if n = 3 then "name3" else ""

/-- Visible leaf with symbol 2 (`name2`). -/
def leafN2 : TSTree := ts_tree_make_leaf 2 1 0 false

/-- Visible leaf with symbol 3 (`name3`). -/
def leafN3 : TSTree := ts_tree_make_leaf 3 1 0 false

/-- Visible tree `(name1 (name2) (name3))`. -/
def treeT1 : TSTree := ts_tree_make_node 1 [leafN2, leafN3] false

/-- A hidden wrapper whose sole child is the `name2` leaf. -/
def wrapN2 : TSTree := ts_tree_make_node 9 [leafN2] true

/-- `treeT1` with the `name2` child replaced by the hidden wrapper. -/
def treeT1W : TSTree := ts_tree_make_node 1 [wrapN2, leafN3] false

/-- C8: the visible tree `treeT1` renders as `(name1 (name2) (name3))`;
replacing the `name2` child by a hidden wrapper whose sole child is the
`name2` leaf yields the identical string; a hidden non-error node rendered
as a non-root contributes no parentheses or name, only its rendered
children; and the topmost node is rendered as visible even when its hidden
flag is set. -/
theorem ts_tree_string_round_trip :
    ts_tree_string treeT1 names0 = "(name1 (name2) (name3))" ∧
    ts_tree_string treeT1W names0 = "(name1 (name2) (name3))" ∧
    (∀ (symbol_names : Nat → String) (d : TSTreeData) (cs : List TSTree)
        (vcs : List (TSTree × Nat)),
      d.hidden = true → d.symbol ≠ ts_builtin_sym_error →
      tree_write_to_string symbol_names (TSTree.mk d cs vcs) false =
        children_write_to_string symbol_names cs) ∧
    ts_tree_string (ts_tree_make_node 1 [leafN2, leafN3] true) names0 =
      "(name1 (name2) (name3))" := by
  refine ⟨by decide, by decide, ?_, by decide⟩
  intro symbol_names d cs vcs hd hsym
  rw [tree_write_to_string]
  simp [hd]

/-- Witness for C8: the hidden-node clause applied to a concrete hidden
leaf with symbol 2, which renders to the empty child rendering. -/
theorem ts_tree_string_round_trip_witness :
    tree_write_to_string names0
      (TSTree.mk ⟨1, 2, 1, 0, Char.ofNat 0, 0, true, false⟩ [] []) false =
      children_write_to_string names0 [] :=
  ts_tree_string_round_trip.2.2.1 names0
    ⟨1, 2, 1, 0, Char.ofNat 0, 0, true, false⟩ [] [] rfl (by decide)

/-! ### C9: error-node rendering -/

/-- C9: a node built by `ts_tree_make_error` renders as
`(ERROR <lookahead>)`, where the lookahead renders as the character in
single quotes, or `<EOF>` for the `'\0'` end-of-input sentinel; in
particular `ts_tree_make_error 1 0 'x'` renders as `(ERROR 'x')` and the
same node with the sentinel renders as `(ERROR <EOF>)`. -/
theorem ts_tree_string_error_rendering :
    (∀ (size padding : Nat) (c : Char) (symbol_names : Nat → String),
      ts_tree_string (ts_tree_make_error size padding c) symbol_names =
        "(ERROR " ++ write_lookahead_to_string c ++ ")") ∧
    (∀ c : Char, c ≠ Char.ofNat 0 →
      write_lookahead_to_string c = "'" ++ String.singleton c ++ "'") ∧
    write_lookahead_to_string (Char.ofNat 0) = "<EOF>" ∧
    ts_tree_string (ts_tree_make_error 1 0 'x') names0 = "(ERROR 'x')" ∧
    ts_tree_string (ts_tree_make_error 1 0 (Char.ofNat 0)) names0 =
      "(ERROR <EOF>)" := by
  refine ⟨?_, ?_, by decide, by decide, by decide⟩
  · intro size padding c symbol_names
    have h : ts_tree_make_error size padding c =
        TSTree.mk ⟨1, ts_builtin_sym_error, size, padding, c, 0, false,
          false⟩ [] [] := rfl
    show tree_write_to_string symbol_names
        (ts_tree_make_error size padding c) true = _
    rw [h, tree_write_to_string]
    simp [children_write_to_string]
  · intro c hc
    rw [write_lookahead_to_string, if_neg hc]

/-- Witness for C9: the quoted-character clause applied at `'x'`. -/
theorem ts_tree_string_error_rendering_witness :
    ts_tree_string (ts_tree_make_error 2 3 'x') names0 =
      "(ERROR " ++ write_lookahead_to_string 'x' ++ ")" ∧
    write_lookahead_to_string 'x' = "'" ++ String.singleton 'x' ++ "'" :=
  ⟨ts_tree_string_error_rendering.1 2 3 'x' names0,
    ts_tree_string_error_rendering.2.1 'x' (by decide)⟩

/-! ### C5: offset monotonicity of the flattened visible-child cache -/

/-- Summed extents (padding + size) of a list of trees. -/
def total_extent (l : List TSTree) : Nat :=
  (l.map fun c => c.padding + c.size).sum

lemma total_extent_cons (c : TSTree) (rest : List TSTree) :
    total_extent (c :: rest) = c.padding + c.size + total_extent rest := by
  simp [total_extent]

/-- Trees produced by the three constructors of `tree.c` from already-built
children, matching the bottom-up construction discipline of the parser. -/
inductive Built : TSTree → Prop where
  | leaf (sym size padding : Nat) (is_hidden : Bool) :
      Built (ts_tree_make_leaf sym size padding is_hidden)
  | error (size padding : Nat) (c : Char) :
      Built (ts_tree_make_error size padding c)
  | node (symbol : Nat) (children : List TSTree) (is_hidden : Bool)
      (h : ∀ c ∈ children, Built c) :
      Built (ts_tree_make_node symbol children is_hidden)

/-- Invariant of the flattened visible-child cache: offsets are
non-decreasing, and every entry's offset plus its tree's size stays within
the node's own size. -/
def entries_ok (t : TSTree) : Prop :=
  ((t.visible_children.map Prod.snd).Pairwise (· ≤ ·)) ∧
  ∀ p ∈ t.visible_children, p.2 + p.1.size ≤ t.size

lemma entries_ok_retain (t : TSTree) (h : entries_ok t) :
    entries_ok (ts_tree_retain t) := by
  cases t; exact h

lemma child_visible_entries_bounds (c : TSTree) (off : Nat)
    (hc : entries_ok c) :
    ∀ p ∈ child_visible_entries c off,
      off ≤ p.2 ∧ p.2 + p.1.size ≤ off + c.size := by
  intro p hp
  rw [child_visible_entries] at hp
  by_cases hv : ts_tree_is_visible c
  · rw [if_pos hv] at hp
    simp only [List.mem_singleton] at hp
    subst hp
    exact ⟨le_refl _, le_refl _⟩
  · rw [if_neg hv] at hp
    obtain ⟨g, hg, rfl⟩ := List.mem_map.mp hp
    have hb := hc.2 g hg
    dsimp only
    exact ⟨Nat.le_add_right _ _, by omega⟩

lemma child_visible_entries_pairwise (c : TSTree) (off : Nat)
    (hc : entries_ok c) :
    ((child_visible_entries c off).map Prod.snd).Pairwise (· ≤ ·) := by
  rw [child_visible_entries]
  by_cases hv : ts_tree_is_visible c
  · rw [if_pos hv]
    simp
  · rw [if_neg hv, List.map_map]
    have hf : (Prod.snd ∘ fun g : TSTree × Nat => (g.1, off + g.2)) =
        fun g : TSTree × Nat => off + g.2 := rfl
    rw [hf]
    have h1 := hc.1
    rw [List.pairwise_map] at h1 ⊢
    exact h1.imp fun hab => by omega

lemma collect_visible_rest_bounds :
    ∀ (l : List TSTree) (off : Nat), (∀ c ∈ l, entries_ok c) →
      ∀ p ∈ collect_visible_rest l off,
        off ≤ p.2 ∧ p.2 + p.1.size ≤ off + total_extent l
  | [], off, _, p, hp => by simp [collect_visible_rest] at hp
  | c :: rest, off, h, p, hp => by
    rw [collect_visible_rest] at hp
    rw [total_extent_cons]
    rcases List.mem_append.mp hp with hp | hp
    · have hb := child_visible_entries_bounds c (off + c.padding)
        (h c (by simp)) p hp
      exact ⟨by omega, by omega⟩
    · have hb := collect_visible_rest_bounds rest (off + c.padding + c.size)
        (fun z hz => h z (by simp [hz])) p hp
      exact ⟨by omega, by omega⟩

lemma collect_visible_rest_pairwise :
    ∀ (l : List TSTree) (off : Nat), (∀ c ∈ l, entries_ok c) →
      ((collect_visible_rest l off).map Prod.snd).Pairwise (· ≤ ·)
  | [], off, _ => by simp [collect_visible_rest]
  | c :: rest, off, h => by
    rw [collect_visible_rest, List.map_append, List.pairwise_append]
    refine ⟨child_visible_entries_pairwise c (off + c.padding)
        (h c (by simp)),
      collect_visible_rest_pairwise rest (off + c.padding + c.size)
        (fun z hz => h z (by simp [hz])), ?_⟩
    intro x hx y hy
    obtain ⟨p, hp, rfl⟩ := List.mem_map.mp hx
    obtain ⟨q, hq, rfl⟩ := List.mem_map.mp hy
    have h1 := (child_visible_entries_bounds c (off + c.padding)
      (h c (by simp)) p hp).2
    have h2 := (collect_visible_rest_bounds rest (off + c.padding + c.size)
      (fun z hz => h z (by simp [hz])) q hq).1
    omega

lemma collect_visible_children_bounds (c : TSTree) (rest : List TSTree)
    (h : ∀ z ∈ c :: rest, entries_ok z) :
    ∀ p ∈ collect_visible_children (c :: rest),
      p.2 + p.1.size ≤ c.size + total_extent rest := by
  intro p hp
  rw [collect_visible_children] at hp
  rcases List.mem_append.mp hp with hp | hp
  · have hb := (child_visible_entries_bounds c 0 (h c (by simp)) p hp).2
    omega
  · have hb := (collect_visible_rest_bounds rest c.size
      (fun z hz => h z (by simp [hz])) p hp).2
    omega

lemma collect_visible_children_pairwise (l : List TSTree)
    (h : ∀ z ∈ l, entries_ok z) :
    ((collect_visible_children l).map Prod.snd).Pairwise (· ≤ ·) := by
  cases l with
  | nil => simp [collect_visible_children]
  | cons c rest =>
    rw [collect_visible_children, List.map_append, List.pairwise_append]
    refine ⟨child_visible_entries_pairwise c 0 (h c (by simp)),
      collect_visible_rest_pairwise rest c.size
        (fun z hz => h z (by simp [hz])), ?_⟩
    intro x hx y hy
    obtain ⟨p, hp, rfl⟩ := List.mem_map.mp hx
    obtain ⟨q, hq, rfl⟩ := List.mem_map.mp hy
    have h1 := (child_visible_entries_bounds c 0 (h c (by simp)) p hp).2
    have h2 := (collect_visible_rest_bounds rest c.size
      (fun z hz => h z (by simp [hz])) q hq).1
    omega

lemma built_entries_ok : ∀ (t : TSTree), Built t → entries_ok t := by
  intro t h
  induction h with
  | leaf sym size padding is_hidden =>
    exact ⟨by simp [ts_tree_make_leaf], by simp [ts_tree_make_leaf]⟩
  | error size padding c =>
    exact ⟨by simp [ts_tree_make_error, ts_tree_make_leaf],
      by simp [ts_tree_make_error, ts_tree_make_leaf]⟩
  | node symbol children is_hidden hch ih =>
    have hok : ∀ z ∈ children.map ts_tree_retain, entries_ok z := by
      intro z hz
      obtain ⟨c, hc, rfl⟩ := List.mem_map.mp hz
      exact entries_ok_retain c (ih c hc)
    constructor
    · exact collect_visible_children_pairwise (children.map ts_tree_retain)
        hok
    · cases children with
      | nil => intro p hp; simp [ts_tree_make_node,
          collect_visible_children] at hp
      | cons c rest =>
        intro p hp
        exact collect_visible_children_bounds (ts_tree_retain c)
          (rest.map ts_tree_retain) hok p hp

/-- Visible zero-extent leaf used in the C5 counterexample. -/
def leafZ : TSTree := ts_tree_make_leaf 6 0 0 false

/-- Node over two zero-extent visible leaves; both its visible-child
entries sit at offset 0. -/
def nodeZ : TSTree := ts_tree_make_node 7 [leafZ, leafZ] false

/-- C5 counterexample: the offsets of `nodeZ`'s visible-child entries are
`[0, 0]`, not strictly increasing; and for the scenario root R the last
entry's offset plus that entry's total extent (padding + size) is
`2 + (1 + 2) = 5`, which exceeds `R.size + R.padding = 4`. -/
theorem visible_children_monotonicity_cex :
    (¬ ((nodeZ.visible_children.map Prod.snd).Pairwise (· < ·))) ∧
    (¬ (∀ p ∈ nodeR.visible_children.getLast?.toList,
        p.2 + (p.1.padding + p.1.size) ≤ nodeR.size + nodeR.padding)) := by
  decide

/-- C5 amended: for every tree built by the constructors, the offsets of
the flattened visible-child entries are non-decreasing, and every entry's
offset plus that entry's size (padding excluded) is at most the node's size
plus the node's padding. -/
theorem built_visible_children_monotone (t : TSTree) (h : Built t) :
    ((t.visible_children.map Prod.snd).Pairwise (· ≤ ·)) ∧
    ∀ p ∈ t.visible_children, p.2 + p.1.size ≤ t.size + t.padding := by
  have hk := built_entries_ok t h
  exact ⟨hk.1, fun p hp => le_trans (hk.2 p hp) (Nat.le_add_right _ _)⟩

/-- Witness for C5: instantiated at the built scenario root R, whose last
visible-child entry (the retained leaf B at offset 2) satisfies the
amended bound with equality. -/
theorem built_visible_children_monotone_witness :
    ((nodeR.visible_children.map Prod.snd).Pairwise (· ≤ ·)) ∧
    2 + (ts_tree_retain leafB).size ≤ nodeR.size + nodeR.padding := by
  have hBuilt : Built nodeR := by
    refine Built.node 4 [leafA, nodeW] false ?_
    intro c hc
    rcases List.mem_cons.mp hc with rfl | hc
    · exact Built.leaf 1 1 0 false
    · rcases List.mem_cons.mp hc with rfl | hc
      · refine Built.node 3 [leafB] true ?_
        intro z hz
        rcases List.mem_cons.mp hz with rfl | hz
        · exact Built.leaf 2 2 1 false
        · simp at hz
      · simp at hc
  have h := built_visible_children_monotone nodeR hBuilt
  have hm : (ts_tree_retain leafB, 2) ∈ nodeR.visible_children := by
    show (ts_tree_retain leafB, 2) ∈
      [(ts_tree_retain leafA, 0), (ts_tree_retain leafB, 2)]
    exact List.mem_cons_of_mem _ (List.mem_cons_self _ _)
  exact ⟨h.1, h.2 (ts_tree_retain leafB, 2) hm⟩
